import Mathlib

/-!
Verification of the gcloud-python-bigtable HappyBase compatibility layer:
the filter-compilation helpers and table read methods of
`gcloud_bigtable/happybase/table.py`, the garbage-collection rule
simplification, the long-running `Operation` state of
`gcloud_bigtable/cluster.py`, and the operation poller pinned down by
`gcloud_bigtable/test_api.py`.

Python strings are modelled as `List Char`; Python byte strings as
`List Nat` (each entry one byte).  Timestamps (`datetime` values) are
modelled by their microsecond count since the epoch, so the
`_microseconds_to_timestamp` helper is the identity on microsecond counts.
-/

namespace GcloudBigtable

/-- A Python `str` value, modelled as its list of characters. -/
abbrev PyStr := List Char

/-- A Python byte string, modelled as the list of its byte values. -/
abbrev ByteStr := List Nat

/-- Python's `s.split(sep)` for a single-character separator: splits at
every occurrence of `sep`, producing one (possibly empty) part more than
the number of separators, e.g. `"fam:col".split(":") == ["fam", "col"]`
and `"fam:".split(":") == ["fam", ""]`. -/
def pySplit (sep : Char) : List Char → List (List Char)
  | [] => [[]]
  | c :: rest =>
    let parts := pySplit sep rest
    if c = sep then [] :: parts
    else
      match parts with
      | p :: ps => (c :: p) :: ps
      | [] => [[c]]

/-- From `table.py` `_next_char(str_val, index)`: the one-byte string holding
the byte of `str_val` at `index`, incremented by one
(`chr(ord_val + 1)` encoded latin-1). -/
def _next_char (str_val : ByteStr) (index : Nat) : ByteStr :=
  [str_val.getD index 0 + 1]

/-- From `table.py` `_string_successor(str_val)`: increment the last byte that
is smaller than `0xFF` and drop everything after it; if the string only
contains `0xFF` bytes (or is empty), return `b''`.  The source scans an index
from the last byte backwards past every `0xFF`; here that backwards scan is
`dropWhile` on the reversed byte list, and `str_val[:index] + _next_char(...)`
is re-attaching the incremented byte in front of the untouched head. -/
def _string_successor (str_val : ByteStr) : ByteStr :=
  match str_val.reverse.dropWhile (fun b => b == 0xff) with
  | [] => []
  | b :: rest => ((b + 1) :: rest).reverse

/-- From `row.py` `TimestampRange(start=..., end=...)`; both bounds are
optional timestamps (modelled as microsecond counts), the end bound
exclusive. -/
structure TimestampRange where
  start : Option Nat
  end_ : Option Nat

/-- The row filters of `row.py` used by the HappyBase table module:
the five leaf filters together with the `RowFilterChain` (logical AND, in
order) and `RowFilterUnion` (logical OR) composites. -/
inductive RowFilter where
  | familyNameRegex (family : PyStr)
  | columnQualifierRegex (qualifier : PyStr)
  | rowKeyRegex (row_key : PyStr)
  | cellsColumnLimit (num_cells : Nat)
  | timestampRangeFilter (range : TimestampRange)
  | chain (filters : List RowFilter)
  | union (filters : List RowFilter)

mutual

/-- Whether a filter tree contains a timestamp-range leaf anywhere. -/
def RowFilter.hasTimestampFilter : RowFilter → Bool
  | RowFilter.timestampRangeFilter _ => true
  | RowFilter.chain fs => hasTimestampFilterList fs
  | RowFilter.union fs => hasTimestampFilterList fs
  | _ => false

/-- Whether any filter in a list contains a timestamp-range leaf. -/
def hasTimestampFilterList : List RowFilter → Bool
  | [] => false
  | f :: fs => RowFilter.hasTimestampFilter f || hasTimestampFilterList fs

end

/-- Modelled from the spec: timestamps are microsecond counts, so the absent
`_microseconds_to_timestamp` helper (from `_non_upstream_helpers.py`, not
among these sources), which converts a microsecond count into a timestamp
value, is the identity. -/
def _microseconds_to_timestamp (micros : Nat) : Nat := micros

/-- From `table.py` `_convert_to_time_range(timestamp)`: `None` maps to no
range; a millisecond timestamp `t` maps to the range whose exclusive end is
the timestamp of `1000 * t` microseconds (no start bound). -/
def _convert_to_time_range (timestamp : Option Nat) : Option TimestampRange :=
  match timestamp with
  | none => none
  | some t => some ⟨none, some (_microseconds_to_timestamp (1000 * t))⟩

/-- The filter list built by `table.py` `_filter_chain_helper` before
wrapping: starting from `filters`, append family and qualifier leaves for
`column` (split on `':'`, which must yield exactly two parts), then a
`CellsColumnLimitFilter` for `versions`, then a `TimestampRangeFilter` for
`timestamp`. -/
def _filter_chain_filters (column : Option PyStr) (versions : Option Nat)
    (timestamp : Option Nat) (filters : List RowFilter) :
    Except String (List RowFilter) := do
  let filters ← match column with
    | some col =>
      match pySplit ':' col with
      | [column_family_id, column_qualifier] =>
        let fam_filter := RowFilter.familyNameRegex column_family_id
        let qual_filter := RowFilter.columnQualifierRegex column_qualifier
        pure (filters ++ [fam_filter, qual_filter])
      | _ => Except.error "column.split failed to unpack into two values"
    | none => pure filters
  let filters := match versions with
    | some v => filters ++ [RowFilter.cellsColumnLimit v]
    | none => filters
  let filters := match _convert_to_time_range timestamp with
    | some time_range => filters ++ [RowFilter.timestampRangeFilter time_range]
    | none => filters
  pure filters

/-- From `table.py` `_filter_chain_helper(column, versions, timestamp,
filters)`: build the filter list, then fail if it is empty, return a single
filter unwrapped, and otherwise wrap the list in a `RowFilterChain`. -/
def _filter_chain_helper (column : Option PyStr) (versions : Option Nat)
    (timestamp : Option Nat) (filters : List RowFilter) :
    Except String RowFilter := do
  let filters ← _filter_chain_filters column versions timestamp filters
  match filters with
  | [] => Except.error "Must have at least one filter."
  | [f] => Except.ok f
  | _ => Except.ok (RowFilter.chain filters)

/-- Modelled from the spec: `_get_column_pairs` (imported by `table.py` from
the happybase batch module, which is not among these sources) parses one
column name into a `(family, qualifier)` pair — `"fam"` and `"fam:"` name an
entire column family (no qualifier), `"fam:col"` names a single column, and
anything else is an invalid-argument error. -/
def _get_column_pair (column : PyStr) : Except String (PyStr × Option PyStr) :=
  match pySplit ':' column with
  | [column_family_id] => Except.ok (column_family_id, none)
  | [column_family_id, []] => Except.ok (column_family_id, none)
  | [column_family_id, column_qualifier] =>
    Except.ok (column_family_id, some column_qualifier)
  | _ => Except.error "invalid column name"

/-- Modelled from the spec: `_get_column_pairs` applied to a whole column
list, parsing each column name with `_get_column_pair` in order. -/
def _get_column_pairs : List PyStr → Except String (List (PyStr × Option PyStr))
  | [] => Except.ok []
  | column :: columns => do
    let pair ← _get_column_pair column
    let pairs ← _get_column_pairs columns
    pure (pair :: pairs)

/-- The per-pair filter built inside the loop of `table.py`
`_columns_filter_helper`: a family-name leaf when there is no qualifier, and
a two-leaf chain (family match, then qualifier match) when there is one. -/
def _column_pair_filter : PyStr × Option PyStr → RowFilter
  | (column_family_id, some column_qualifier) =>
    RowFilter.chain [RowFilter.familyNameRegex column_family_id,
                     RowFilter.columnQualifierRegex column_qualifier]
  | (column_family_id, none) => RowFilter.familyNameRegex column_family_id

/-- From `table.py` `_columns_filter_helper(columns)`: build one filter per
column pair, fail on an empty list, return a single filter unwrapped, and
otherwise wrap the list in a `RowFilterUnion`. -/
def _columns_filter_helper (columns : List PyStr) : Except String RowFilter := do
  let pairs ← _get_column_pairs columns
  let filters := pairs.map _column_pair_filter
  match filters with
  | [] => Except.error "Must have at least one filter."
  | [f] => Except.ok f
  | _ => Except.ok (RowFilter.union filters)

/-- From `table.py` `_row_keys_filter_helper(row_keys)`: one
`RowKeyRegexFilter` per key, fail on an empty list, return a single filter
unwrapped, and otherwise wrap the list in a `RowFilterUnion`. -/
def _row_keys_filter_helper (row_keys : List PyStr) : Except String RowFilter :=
  let filters := row_keys.map RowFilter.rowKeyRegex
  match filters with
  | [] => Except.error "Must have at least one filter."
  | [f] => Except.ok f
  | _ => Except.ok (RowFilter.union filters)

namespace Table

/-- The filter built by `Table.row(row, columns, timestamp, ...)`: the
columns filter (when columns are given) followed by
`_filter_chain_helper(versions=1, timestamp=timestamp, filters=filters)`. -/
def row_filter (columns : Option (List PyStr)) (timestamp : Option Nat) :
    Except String RowFilter := do
  let filters ← match columns with
    | some cols => do
      let cf ← _columns_filter_helper cols
      pure [cf]
    | none => pure ([] : List RowFilter)
  _filter_chain_helper none (some 1) timestamp filters

/-- Outcome of the pure front half of `Table.rows`: either the immediate
empty result (no filter is built and no read request is issued), or a read
request carrying the compiled filter, or a raised error. -/
inductive RowsAction where
  | emptyResult
  | readRequest (filter : RowFilter)
  | invalid (msg : String)

/-- From `Table.rows(rows, columns, timestamp, ...)`: with an empty key list
return `[]` at once (avoiding the round-trip); otherwise build the columns
filter (when given), append the row-keys filter, and compile with
`_filter_chain_helper(versions=1, timestamp=timestamp, filters=filters)`. -/
def rows_plan (rows : List PyStr) (columns : Option (List PyStr))
    (timestamp : Option Nat) : RowsAction :=
  if rows.isEmpty then RowsAction.emptyResult
  else
    let built : Except String RowFilter := do
      let filters ← match columns with
        | some cols => do
          let cf ← _columns_filter_helper cols
          pure [cf]
        | none => pure ([] : List RowFilter)
      let rk ← _row_keys_filter_helper rows
      _filter_chain_helper none (some 1) timestamp (filters ++ [rk])
    match built with
    | Except.ok f => RowsAction.readRequest f
    | Except.error e => RowsAction.invalid e

/-- From `Table.cells(row, column, versions, timestamp, ...)`: the filter is
`_filter_chain_helper(column=column, versions=versions,
timestamp=timestamp)` with no pre-existing filters. -/
def cells_filter (column : PyStr) (versions : Option Nat)
    (timestamp : Option Nat) : Except String RowFilter :=
  _filter_chain_helper (some column) versions timestamp []

/-- From `Table.scan(...)`: the externally supplied filter (when given)
first, then the columns filter (when given), compiled with
`_filter_chain_helper(versions=1, timestamp=timestamp, filters=filters)`.
An HBase filter string raises `TypeError` in the source; here the external
filter is already a `RowFilter` value. -/
def scan_filter (filter : Option RowFilter) (columns : Option (List PyStr))
    (timestamp : Option Nat) : Except String RowFilter := do
  let filters : List RowFilter := match filter with
    | some f => [f]
    | none => []
  let filters ← match columns with
    | some cols => do
      let cf ← _columns_filter_helper cols
      pure (filters ++ [cf])
    | none => pure filters
  _filter_chain_helper none (some 1) timestamp filters

end Table

/-- The garbage-collection rules of `column_family.py` used by the HappyBase
table module: `MaxAgeGCRule` (bound in seconds), `MaxVersionsGCRule`, and
the `GCRuleIntersection` / `GCRuleUnion` composites. -/
inductive GCRule where
  | maxAge (seconds : Nat)
  | maxVersions (max_num_versions : Nat)
  | intersection (rules : List GCRule)
  | union (rules : List GCRule)

/-- The `isinstance(rule, _SIMPLE_GC_RULES)` check of `table.py`: whether a
rule is a `MaxAgeGCRule` or a `MaxVersionsGCRule`. -/
def _is_simple_gc_rule : GCRule → Bool
  | GCRule.maxAge _ => true
  | GCRule.maxVersions _ => true
  | _ => false

/-- Result of `_gc_rule_to_dict`: either a HappyBase-style dictionary
(association list from policy name to bound) or the input rule unchanged. -/
inductive GCRuleView where
  | dict (entries : List (String × Nat))
  | rule (gc_rule : GCRule)

/-- The recursive `_gc_rule_to_dict(rule1)` calls of the intersection branch,
made on rules already checked to be simple: the single-entry dictionary of a
simple rule (and `[]` on a composite, a case the caller has excluded). -/
def _simple_gc_rule_dict : GCRule → List (String × Nat)
  | GCRule.maxAge seconds => [("time_to_live", seconds)]
  | GCRule.maxVersions max_num_versions => [("max_versions", max_num_versions)]
  | _ => []

/-- From `table.py` `_gc_rule_to_dict(gc_rule)`: `None` maps to the empty
dict; a `MaxAgeGCRule` to `{'time_to_live': seconds}`; a `MaxVersionsGCRule`
to `{'max_versions': n}`; a `GCRuleIntersection` of exactly two simple rules
whose single dictionary keys differ to the combined two-key dict; every
other input is returned unchanged. -/
def _gc_rule_to_dict : Option GCRule → GCRuleView
  | none => GCRuleView.dict []
  | some (GCRule.maxAge seconds) => GCRuleView.dict [("time_to_live", seconds)]
  | some (GCRule.maxVersions max_num_versions) =>
    GCRuleView.dict [("max_versions", max_num_versions)]
  | some (GCRule.intersection [rule1, rule2]) =>
    if _is_simple_gc_rule rule1 && _is_simple_gc_rule rule2 then
      match _simple_gc_rule_dict rule1, _simple_gc_rule_dict rule2 with
      | [(key1, val1)], [(key2, val2)] =>
        if key1 ≠ key2 then GCRuleView.dict [(key1, val1), (key2, val2)]
        else GCRuleView.rule (GCRule.intersection [rule1, rule2])
      | _, _ => GCRuleView.rule (GCRule.intersection [rule1, rule2])
    else GCRuleView.rule (GCRule.intersection [rule1, rule2])
  | some gc_rule => GCRuleView.rule gc_rule

/-- From `Table.families()`: map `_gc_rule_to_dict` over the garbage
collection rule of every listed column family. -/
def Table.families (column_family_map : List (String × Option GCRule)) :
    List (String × GCRuleView) :=
  column_family_map.map (fun p => (p.1, _gc_rule_to_dict p.2))

/-- From `cluster.py` `Operation.__init__`: the operation type, id and begin
time (the owning cluster reference is I/O state and is omitted), with the
`_complete` flag. -/
structure Operation where
  op_type : String
  op_id : Nat
  begin_ : Nat
  _complete : Bool

/-- `Operation.__init__(op_type, op_id, begin)`: `_complete` starts `False`. -/
def Operation.init (op_type : String) (op_id : Nat) (begin_ : Nat) : Operation :=
  ⟨op_type, op_id, begin_, false⟩

/-- From `cluster.py` `Operation.finished()`: raise `ValueError` if the
operation has already completed (before any RPC is made); otherwise issue
one `GetOperation` status query (its `done` flag is the `done` argument) and
on `done` set `_complete` and return `True`, else return `False`.  The first
component is the raised error or the returned flag together with the updated
operation; the second counts the status queries issued by the call. -/
def Operation.finished (op : Operation) (done : Bool) :
    Except String (Bool × Operation) × Nat :=
  if op._complete then (Except.error "The operation has completed.", 0)
  else if done then
    (Except.ok (true, ⟨op.op_type, op.op_id, op.begin_, true⟩), 1)
  else (Except.ok (false, op), 1)

/-- Final status of `_wait_for_operation`: the operation reported done after
`num_queries` status queries, or the retry budget was exhausted (the source
raises `ValueError`). -/
inductive PollOutcome where
  | done (num_queries : Nat)
  | timedOut

/-- Modelled from the spec: the poll loop of `_wait_for_operation` (from the
absent `api` module, pinned down by `test_api.py`): up to `max_retries`
status queries; if the k-th query (0-based, `statuses k` its `done` flag)
reports done, return at once with no further wait; otherwise sleep
`base_wait * 2 ^ k` and retry; after `max_retries` not-done queries, time
out.  Returns the outcome and the list of sleep durations in order. -/
def _wait_for_operation_aux (statuses : Nat → Bool) (base_wait : Nat) :
    Nat → Nat → PollOutcome × List Nat
  | 0, _ => (PollOutcome.timedOut, [])
  | fuel + 1, k =>
    if statuses k then (PollOutcome.done (k + 1), [])
    else
      let rest := _wait_for_operation_aux statuses base_wait fuel (k + 1)
      (rest.1, base_wait * 2 ^ k :: rest.2)

/-- Modelled from the spec: `_wait_for_operation` run from the initial state
(no queries made yet, retry counter zero). -/
def _wait_for_operation (statuses : Nat → Bool) (max_retries base_wait : Nat) :
    PollOutcome × List Nat :=
  _wait_for_operation_aux statuses base_wait max_retries 0

/-! Theorems -/

/-- Dropping while a predicate holds ignores a leading block on which it
holds everywhere. -/
theorem dropWhile_append_of_all (l r : ByteStr) (h : ∀ x ∈ l, x = 0xff) :
    (l ++ r).dropWhile (fun b => b == 0xff) =
      r.dropWhile (fun b => b == 0xff) := by
  induction l with
  | nil => rfl
  | cons a l ih =>
    have ha : a = 0xff := h a (by simp)
    simp only [List.cons_append, List.dropWhile_cons, ha]
    simpa using ih (fun x hx => h x (by simp [hx]))

/-- C1: for every byte sequence, `_string_successor` increments the last byte
strictly below `0xFF` and drops every byte after it; if the sequence is
empty or all bytes are `0xFF`, it returns the empty sequence; in particular
successor of "abc" is "abd", of "ab\xff" is "ac", of "\xff\xff" and of ""
is "".  The function is total (it is a Lean function on all byte lists). -/
theorem string_successor_spec :
    (∀ (p : ByteStr) (b : Nat) (t : ByteStr), b < 0xff → (∀ x ∈ t, x = 0xff) →
      _string_successor (p ++ b :: t) = p ++ [b + 1])
    ∧ (∀ s : ByteStr, (∀ x ∈ s, x = 0xff) → _string_successor s = [])
    ∧ _string_successor [97, 98, 99] = [97, 98, 100]
    ∧ _string_successor [97, 98, 0xff] = [97, 99]
    ∧ _string_successor [0xff, 0xff] = []
    ∧ _string_successor [] = [] := by
  refine ⟨?_, ?_, by decide, by decide, by decide, rfl⟩
  · intro p b t hb ht
    have hdrop : List.dropWhile (fun x => x == 0xff)
        (t.reverse ++ b :: p.reverse) = b :: p.reverse := by
      rw [dropWhile_append_of_all _ _ (fun x hx => ht x (by simpa using hx))]
      have hbne : (b == 0xff) = false := by
        simp [Nat.ne_of_lt hb]
      simp [List.dropWhile_cons, hbne]
    simp [_string_successor, hdrop]
  · intro s hs
    have hdrop : s.reverse.dropWhile (fun x => x == 0xff) = [] := by
      have := dropWhile_append_of_all s.reverse []
        (fun x hx => hs x (by simpa using hx))
      simpa using this
    simp [_string_successor, hdrop]

/-- Witness for C1 at concrete inputs. -/
theorem string_successor_spec_witness :
    _string_successor ([97] ++ 98 :: [0xff]) = [97] ++ [99]
    ∧ _string_successor [0xff, 0xff] = [] :=
  ⟨string_successor_spec.1 [97] 98 [0xff] (by decide) (by decide),
   string_successor_spec.2.1 [0xff, 0xff] (by decide)⟩

/-- C6: an intent with no column, no version cap, no timestamp and no
pre-existing filters fails with the invalid-request error "Must have at
least one filter.", and the column-union and row-key-union helpers fail the
same way on empty input instead of producing a zero-child composite. -/
theorem empty_clause_spec :
    _filter_chain_helper none none none [] =
      Except.error "Must have at least one filter."
    ∧ _columns_filter_helper [] = Except.error "Must have at least one filter."
    ∧ _row_keys_filter_helper [] =
      Except.error "Must have at least one filter." :=
  ⟨rfl, rfl, rfl⟩

/-- C9: `Table.rows` with an empty row-key collection returns the empty list
immediately — no filter is built and no read request is issued, so the empty
key set never reaches the "Must have at least one filter." error. -/
theorem rows_empty_spec :
    ∀ (columns : Option (List PyStr)) (timestamp : Option Nat),
      Table.rows_plan [] columns timestamp = Table.RowsAction.emptyResult :=
  fun _ _ => rfl

/-- C10: `_gc_rule_to_dict` applied to `None` (a column family with no
garbage-collection rule) returns the empty dict — not `None` and not an
unchanged rule — and this is what `Table.families` exposes for such a
family. -/
theorem gc_rule_none_spec :
    _gc_rule_to_dict none = GCRuleView.dict []
    ∧ (∀ (fam : String) (rest : List (String × Option GCRule)),
        Table.families ((fam, none) :: rest) =
          (fam, GCRuleView.dict []) :: Table.families rest) :=
  ⟨rfl, fun _ _ => rfl⟩

/-- Prepending the sleep taken before a retry extends the backoff schedule by
one doubling step. -/
theorem range_map_pow_cons (w k n : Nat) :
    w * 2 ^ k :: (List.range n).map (fun j => w * 2 ^ (k + 1 + j)) =
      (List.range (n + 1)).map (fun j => w * 2 ^ (k + j)) := by
  rw [List.range_succ_eq_map, List.map_cons, List.map_map]
  refine congrArg₂ _ (by simp) (List.map_congr_left ?_)
  intro j hj
  simp [Function.comp, Nat.add_assoc, Nat.add_comm 1 j]

/-- If every remaining status query reports not-done, the poller times out
with the full doubling backoff schedule. -/
theorem wait_aux_timeout (statuses : Nat → Bool) (w : Nat) :
    ∀ fuel k, (∀ j, j < fuel → statuses (k + j) = false) →
      _wait_for_operation_aux statuses w fuel k =
        (PollOutcome.timedOut, (List.range fuel).map (fun j => w * 2 ^ (k + j))) := by
  intro fuel
  induction fuel with
  | zero => intro k _; rfl
  | succ fuel ih =>
    intro k h
    have hk : statuses k = false := by simpa using h 0 (Nat.succ_pos fuel)
    have hrest := ih (k + 1) (fun j hj => by
      have := h (j + 1) (Nat.succ_lt_succ hj)
      simpa [Nat.add_assoc, Nat.add_comm 1 j] using this)
    simp only [_wait_for_operation_aux, hk, Bool.false_eq_true, if_false, hrest]
    exact congrArg _ (range_map_pow_cons w k fuel)

/-- If the first done status is at query index `i` (0-based), the poller
returns done after `k + i + 1` queries, having slept `i` times. -/
theorem wait_aux_done (statuses : Nat → Bool) (w : Nat) :
    ∀ i fuel k, i < fuel → (∀ j, j < i → statuses (k + j) = false) →
      statuses (k + i) = true →
      _wait_for_operation_aux statuses w fuel k =
        (PollOutcome.done (k + i + 1),
          (List.range i).map (fun j => w * 2 ^ (k + j))) := by
  intro i
  induction i with
  | zero =>
    intro fuel k hfuel _ hdone
    match fuel, hfuel with
    | fuel + 1, _ =>
      have hk : statuses k = true := by simpa using hdone
      simp [_wait_for_operation_aux, hk]
  | succ i ih =>
    intro fuel k hfuel h hdone
    match fuel, hfuel with
    | fuel + 1, hfuel =>
      have hk : statuses k = false := by simpa using h 0 (Nat.succ_pos i)
      have hrest := ih fuel (k + 1) (Nat.lt_of_succ_lt_succ hfuel)
        (fun j hj => by
          have := h (j + 1) (Nat.succ_lt_succ hj)
          simpa [Nat.add_assoc, Nat.add_comm 1 j] using this)
        (by simpa [Nat.add_assoc, Nat.add_comm 1 i] using hdone)
      simp only [_wait_for_operation_aux, hk, Bool.false_eq_true, if_false, hrest]
      refine congrArg₂ _ (by simp [Nat.add_assoc, Nat.add_comm 1 i]) ?_
      exact range_map_pow_cons w k i

/-- Whatever the statuses, the sleep durations form an initial segment of
the doubling schedule. -/
theorem wait_aux_sleeps_shape (statuses : Nat → Bool) (w : Nat) :
    ∀ fuel k, ∃ n, n ≤ fuel ∧
      (_wait_for_operation_aux statuses w fuel k).2 =
        (List.range n).map (fun j => w * 2 ^ (k + j)) := by
  intro fuel
  induction fuel with
  | zero => intro k; exact ⟨0, Nat.le_refl 0, rfl⟩
  | succ fuel ih =>
    intro k
    by_cases hk : statuses k = true
    · exact ⟨0, Nat.zero_le _, by simp [_wait_for_operation_aux, hk]⟩
    · obtain ⟨n, hn, hsnd⟩ := ih (k + 1)
      refine ⟨n + 1, Nat.succ_le_succ hn, ?_⟩
      simp only [_wait_for_operation_aux, hk, if_false, hsnd]
      exact range_map_pow_cons w k n

/-- C2: for every `max_retries ≥ 1` and base wait `w`, the k-th sleep of the
operation poller lasts `w * 2 ^ (k - 1)` (exact doubling, no jitter); if the
i-th status query is the first to report done (`i ≤ max_retries`), the
poller returns done after exactly `i` queries, the sleeps having been
`w * 2 ^ 0, ..., w * 2 ^ (i - 2)` with no further waits; if `max_retries`
consecutive queries all report not-done, it times out with sleeps
`w * 2 ^ 0, ..., w * 2 ^ (max_retries - 1)`. -/
theorem wait_for_operation_spec (statuses : Nat → Bool)
    (max_retries base_wait i : Nat) :
    (1 ≤ i → i ≤ max_retries → (∀ j, j < i - 1 → statuses j = false) →
      statuses (i - 1) = true →
      _wait_for_operation statuses max_retries base_wait =
        (PollOutcome.done i,
          (List.range (i - 1)).map (fun j => base_wait * 2 ^ j)))
    ∧ ((∀ j, j < max_retries → statuses j = false) →
      _wait_for_operation statuses max_retries base_wait =
        (PollOutcome.timedOut,
          (List.range max_retries).map (fun j => base_wait * 2 ^ j)))
    ∧ (∃ n, n ≤ max_retries ∧
      (_wait_for_operation statuses max_retries base_wait).2 =
        (List.range n).map (fun j => base_wait * 2 ^ j)) := by
  refine ⟨?_, ?_, ?_⟩
  · intro h1 hmax hbefore hdone
    have hlt : i - 1 < max_retries := by omega
    have := wait_aux_done statuses base_wait (i - 1) max_retries 0 hlt
      (fun j hj => by simpa using hbefore j hj) (by simpa using hdone)
    have hi : i - 1 + 1 = i := by omega
    simpa [_wait_for_operation, hi] using this
  · intro hall
    have := wait_aux_timeout statuses base_wait max_retries 0
      (fun j hj => by simpa using hall j hj)
    simpa [_wait_for_operation] using this
  · obtain ⟨n, hn, hsnd⟩ := wait_aux_sleeps_shape statuses base_wait max_retries 0
    exact ⟨n, hn, by simpa [_wait_for_operation] using hsnd⟩

/-- Witness for C2: base wait 1, three retries; statuses not-done, not-done,
done give done after 3 queries with sleeps [1, 2]; all not-done gives
timeout with sleeps [1, 2, 4]. -/
theorem wait_for_operation_spec_witness :
    _wait_for_operation (fun k => decide (k = 2)) 3 1 = (PollOutcome.done 3, [1, 2])
    ∧ _wait_for_operation (fun _ => false) 3 1 = (PollOutcome.timedOut, [1, 2, 4]) := by
  constructor
  · have h := (wait_for_operation_spec (fun k => decide (k = 2)) 3 1 3).1
      (by decide) (by decide) (by decide) (by decide)
    exact h
  · have h := (wait_for_operation_spec (fun _ => false) 3 1 0).2.1
      (fun _ _ => rfl)
    exact h

/-- `_get_column_pairs` yields one pair per column selector. -/
theorem get_column_pairs_length :
    ∀ (cols : List PyStr) (pairs : List (PyStr × Option PyStr)),
      _get_column_pairs cols = Except.ok pairs → pairs.length = cols.length := by
  intro cols
  induction cols with
  | nil =>
    intro pairs h
    simp only [_get_column_pairs] at h
    cases h
    rfl
  | cons col cols ih =>
    intro pairs h
    simp only [_get_column_pairs] at h
    cases hp : _get_column_pair col with
    | error e => simp [hp, Bind.bind, Except.bind] at h
    | ok p =>
      cases hps : _get_column_pairs cols with
      | error e => simp [hp, hps, Bind.bind, Except.bind, Functor.map, Except.map] at h
      | ok ps =>
        simp only [hp, hps, Bind.bind, Except.bind, Functor.map, Except.map] at h
        cases h
        simp [ih ps hps]

/-- C4: a selector naming only a family compiles to a single
family-name-match leaf (also in the "fam:" form); a selector naming family
and qualifier compiles to a chain of exactly two leaves (family match, then
qualifier match); two or more selectors are wrapped in a union with one
child per selector; a single selector's predicate is returned directly with
no wrapping. -/
theorem columns_filter_spec :
    (∀ (col : PyStr) (fam : PyStr), pySplit ':' col = [fam] →
      _columns_filter_helper [col] = Except.ok (RowFilter.familyNameRegex fam))
    ∧ (∀ (col : PyStr) (fam : PyStr), pySplit ':' col = [fam, []] →
      _columns_filter_helper [col] = Except.ok (RowFilter.familyNameRegex fam))
    ∧ (∀ (col fam qual : PyStr), pySplit ':' col = [fam, qual] → qual ≠ [] →
      _columns_filter_helper [col] = Except.ok (RowFilter.chain
        [RowFilter.familyNameRegex fam, RowFilter.columnQualifierRegex qual]))
    ∧ (∀ (cols : List PyStr) (pairs : List (PyStr × Option PyStr)),
      _get_column_pairs cols = Except.ok pairs → 2 ≤ pairs.length →
      _columns_filter_helper cols =
        Except.ok (RowFilter.union (pairs.map _column_pair_filter))
      ∧ (pairs.map _column_pair_filter).length = cols.length)
    ∧ (∀ (col : PyStr) (pair : PyStr × Option PyStr),
      _get_column_pair col = Except.ok pair →
      _columns_filter_helper [col] = Except.ok (_column_pair_filter pair)) := by
  have hsingle : ∀ (col : PyStr) (pair : PyStr × Option PyStr),
      _get_column_pair col = Except.ok pair →
      _columns_filter_helper [col] = Except.ok (_column_pair_filter pair) := by
    intro col pair hp
    simp [_columns_filter_helper, _get_column_pairs, hp, Bind.bind, Except.bind,
      Functor.map, Except.map, Pure.pure, Except.pure]
  refine ⟨?_, ?_, ?_, ?_, hsingle⟩
  · intro col fam hsplit
    have hp : _get_column_pair col = Except.ok (fam, none) := by
      simp [_get_column_pair, hsplit]
    simpa [_column_pair_filter] using hsingle col (fam, none) hp
  · intro col fam hsplit
    have hp : _get_column_pair col = Except.ok (fam, none) := by
      simp [_get_column_pair, hsplit]
    simpa [_column_pair_filter] using hsingle col (fam, none) hp
  · intro col fam qual hsplit hqual
    have hp : _get_column_pair col = Except.ok (fam, some qual) := by
      cases qual with
      | nil => exact absurd rfl hqual
      | cons c cs => simp [_get_column_pair, hsplit]
    simpa [_column_pair_filter] using hsingle col (fam, some qual) hp
  · intro cols pairs hpairs hlen
    refine ⟨?_, by simpa using get_column_pairs_length cols pairs hpairs⟩
    match pairs, hlen with
    | p1 :: p2 :: ps, _ =>
      simp [_columns_filter_helper, hpairs, Bind.bind, Except.bind]

/-- Witness for C4 at concrete inputs: selectors "f", "f:", "f:c" and the
two-selector list ["f", "g:q"]. -/
theorem columns_filter_spec_witness :
    _columns_filter_helper [['f']] = Except.ok (RowFilter.familyNameRegex ['f'])
    ∧ _columns_filter_helper [['f', ':']] =
      Except.ok (RowFilter.familyNameRegex ['f'])
    ∧ _columns_filter_helper [['f', ':', 'c']] = Except.ok (RowFilter.chain
      [RowFilter.familyNameRegex ['f'], RowFilter.columnQualifierRegex ['c']])
    ∧ (_columns_filter_helper [['f'], ['g', ':', 'q']] =
      Except.ok (RowFilter.union
        ([(['f'], none), (['g'], some ['q'])].map _column_pair_filter))
      ∧ ([((['f'] : PyStr), (none : Option PyStr)),
          (['g'], some ['q'])].map _column_pair_filter).length = 2) :=
  ⟨columns_filter_spec.1 ['f'] ['f'] (by decide),
   columns_filter_spec.2.1 ['f', ':'] ['f'] (by decide),
   columns_filter_spec.2.2.1 ['f', ':', 'c'] ['f'] ['c'] (by decide) (by decide),
   columns_filter_spec.2.2.2.1 [['f'], ['g', ':', 'q']]
     [(['f'], none), (['g'], some ['q'])] rfl (by decide)⟩

/-- C3: every compile call site emits a flat ordered chain in the fixed
order — externally supplied predicate (scan), then the column-selection
predicate, then the row-key predicate (rows), then the version-cap
predicate, then the timestamp predicate — except a single-cell-history read
(cells), whose chain is family leaf, qualifier leaf, version cap,
timestamp; a chain of exactly one element is returned unwrapped. -/
theorem composition_order_spec :
    (∀ (f : RowFilter) (cols : List PyStr) (cf : RowFilter) (t : Nat),
      _columns_filter_helper cols = Except.ok cf →
      Table.scan_filter (some f) (some cols) (some t) = Except.ok
        (RowFilter.chain [f, cf, RowFilter.cellsColumnLimit 1,
          RowFilter.timestampRangeFilter ⟨none, some (1000 * t)⟩]))
    ∧ (∀ (k : PyStr) (ks : List PyStr) (cols : List PyStr)
        (cf rk : RowFilter) (t : Nat),
      _columns_filter_helper cols = Except.ok cf →
      _row_keys_filter_helper (k :: ks) = Except.ok rk →
      Table.rows_plan (k :: ks) (some cols) (some t) =
        Table.RowsAction.readRequest
          (RowFilter.chain [cf, rk, RowFilter.cellsColumnLimit 1,
            RowFilter.timestampRangeFilter ⟨none, some (1000 * t)⟩]))
    ∧ (∀ (col fam qual : PyStr) (v t : Nat), pySplit ':' col = [fam, qual] →
      Table.cells_filter col (some v) (some t) = Except.ok
        (RowFilter.chain [RowFilter.familyNameRegex fam,
          RowFilter.columnQualifierRegex qual, RowFilter.cellsColumnLimit v,
          RowFilter.timestampRangeFilter ⟨none, some (1000 * t)⟩]))
    ∧ (∀ v : Nat, _filter_chain_helper none (some v) none [] =
      Except.ok (RowFilter.cellsColumnLimit v)) := by
  refine ⟨?_, ?_, ?_, ?_⟩
  · intro f cols cf t hcf
    simp [Table.scan_filter, _filter_chain_helper, _filter_chain_filters,
      _convert_to_time_range, _microseconds_to_timestamp, hcf,
      Bind.bind, Except.bind, Pure.pure, Except.pure]
  · intro k ks cols cf rk t hcf hrk
    simp [Table.rows_plan, _filter_chain_helper, _filter_chain_filters,
      _convert_to_time_range, _microseconds_to_timestamp, hcf, hrk,
      Bind.bind, Except.bind, Pure.pure, Except.pure]
  · intro col fam qual v t hsplit
    simp [Table.cells_filter, _filter_chain_helper, _filter_chain_filters,
      _convert_to_time_range, _microseconds_to_timestamp, hsplit,
      Bind.bind, Except.bind, Pure.pure, Except.pure]
  · intro v
    rfl

/-- Witness for C3 at concrete inputs: a scan with an external filter,
column "f" and timestamp 3; rows for key "k"; cells for "f:c"; and a
version-cap-only compile. -/
theorem composition_order_spec_witness :
    Table.scan_filter (some (RowFilter.rowKeyRegex ['z'])) (some [['f']]) (some 3) =
      Except.ok (RowFilter.chain [RowFilter.rowKeyRegex ['z'],
        RowFilter.familyNameRegex ['f'], RowFilter.cellsColumnLimit 1,
        RowFilter.timestampRangeFilter ⟨none, some 3000⟩])
    ∧ Table.rows_plan [['k']] (some [['f']]) (some 3) =
      Table.RowsAction.readRequest (RowFilter.chain
        [RowFilter.familyNameRegex ['f'], RowFilter.rowKeyRegex ['k'],
         RowFilter.cellsColumnLimit 1,
         RowFilter.timestampRangeFilter ⟨none, some 3000⟩])
    ∧ Table.cells_filter ['f', ':', 'c'] (some 2) (some 3) =
      Except.ok (RowFilter.chain [RowFilter.familyNameRegex ['f'],
        RowFilter.columnQualifierRegex ['c'], RowFilter.cellsColumnLimit 2,
        RowFilter.timestampRangeFilter ⟨none, some 3000⟩])
    ∧ _filter_chain_helper none (some 5) none [] =
      Except.ok (RowFilter.cellsColumnLimit 5) :=
  ⟨composition_order_spec.1 (RowFilter.rowKeyRegex ['z']) [['f']]
      (RowFilter.familyNameRegex ['f']) 3 rfl,
   composition_order_spec.2.1 ['k'] [] [['f']]
      (RowFilter.familyNameRegex ['f']) (RowFilter.rowKeyRegex ['k']) 3 rfl rfl,
   composition_order_spec.2.2.1 ['f', ':', 'c'] ['f'] ['c'] 2 3 (by decide),
   composition_order_spec.2.2.2 5⟩

/-- C7: `_gc_rule_to_dict` maps a single max-age rule to a time-to-live
dict, a single max-versions rule to a max-versions dict, and an intersection
of exactly two rules of the two different kinds to the two-key dict; every
other composite shape — unions, intersections with repeated kinds,
intersections with other than two rules, intersections holding a nested
composite — is returned unchanged. -/
theorem gc_rule_to_dict_spec :
    (∀ s, _gc_rule_to_dict (some (GCRule.maxAge s)) =
      GCRuleView.dict [("time_to_live", s)])
    ∧ (∀ n, _gc_rule_to_dict (some (GCRule.maxVersions n)) =
      GCRuleView.dict [("max_versions", n)])
    ∧ (∀ s n, _gc_rule_to_dict
        (some (GCRule.intersection [GCRule.maxAge s, GCRule.maxVersions n])) =
      GCRuleView.dict [("time_to_live", s), ("max_versions", n)])
    ∧ (∀ s n, _gc_rule_to_dict
        (some (GCRule.intersection [GCRule.maxVersions n, GCRule.maxAge s])) =
      GCRuleView.dict [("max_versions", n), ("time_to_live", s)])
    ∧ (∀ rules, _gc_rule_to_dict (some (GCRule.union rules)) =
      GCRuleView.rule (GCRule.union rules))
    ∧ (∀ s s', _gc_rule_to_dict
        (some (GCRule.intersection [GCRule.maxAge s, GCRule.maxAge s'])) =
      GCRuleView.rule (GCRule.intersection [GCRule.maxAge s, GCRule.maxAge s']))
    ∧ (∀ n n', _gc_rule_to_dict
        (some (GCRule.intersection [GCRule.maxVersions n, GCRule.maxVersions n'])) =
      GCRuleView.rule
        (GCRule.intersection [GCRule.maxVersions n, GCRule.maxVersions n']))
    ∧ (∀ rules, rules.length ≠ 2 →
      _gc_rule_to_dict (some (GCRule.intersection rules)) =
        GCRuleView.rule (GCRule.intersection rules))
    ∧ (∀ r1 r2, _is_simple_gc_rule r1 = false →
      _gc_rule_to_dict (some (GCRule.intersection [r1, r2])) =
        GCRuleView.rule (GCRule.intersection [r1, r2]))
    ∧ (∀ r1 r2, _is_simple_gc_rule r2 = false →
      _gc_rule_to_dict (some (GCRule.intersection [r1, r2])) =
        GCRuleView.rule (GCRule.intersection [r1, r2])) := by
  refine ⟨fun s => rfl, fun n => rfl, ?_, ?_, ?_, ?_, ?_, ?_, ?_, ?_⟩
  · intro s n
    simp [_gc_rule_to_dict, _is_simple_gc_rule, _simple_gc_rule_dict]
  · intro s n
    simp [_gc_rule_to_dict, _is_simple_gc_rule, _simple_gc_rule_dict]
  · intro rules
    rfl
  · intro s s'
    simp [_gc_rule_to_dict, _is_simple_gc_rule, _simple_gc_rule_dict]
  · intro n n'
    simp [_gc_rule_to_dict, _is_simple_gc_rule, _simple_gc_rule_dict]
  · intro rules h
    match rules, h with
    | [], _ => rfl
    | [r], _ => rfl
    | r1 :: r2 :: [], h => exact absurd rfl h
    | r1 :: r2 :: r3 :: rest, _ => rfl
  · intro r1 r2 h
    cases r1 with
    | maxAge s => exact absurd h (by simp [_is_simple_gc_rule])
    | maxVersions n => exact absurd h (by simp [_is_simple_gc_rule])
    | intersection rs => rfl
    | union rs => rfl
  · intro r1 r2 h
    cases r2 with
    | maxAge s => exact absurd h (by simp [_is_simple_gc_rule])
    | maxVersions n => exact absurd h (by simp [_is_simple_gc_rule])
    | intersection rs =>
      cases r1 <;> simp [_gc_rule_to_dict, _is_simple_gc_rule]
    | union rs =>
      cases r1 <;> simp [_gc_rule_to_dict, _is_simple_gc_rule]

/-- Witness for C7 at concrete inputs: an intersection of other than two
rules and an intersection holding a nested composite stay unchanged. -/
theorem gc_rule_to_dict_spec_witness :
    _gc_rule_to_dict (some (GCRule.intersection [GCRule.maxAge 1])) =
      GCRuleView.rule (GCRule.intersection [GCRule.maxAge 1])
    ∧ _gc_rule_to_dict
        (some (GCRule.intersection [GCRule.union [], GCRule.maxAge 1])) =
      GCRuleView.rule (GCRule.intersection [GCRule.union [], GCRule.maxAge 1]) :=
  ⟨gc_rule_to_dict_spec.2.2.2.2.2.2.2.1 [GCRule.maxAge 1] (by decide),
   gc_rule_to_dict_spec.2.2.2.2.2.2.2.2.1 (GCRule.union []) (GCRule.maxAge 1) rfl⟩

/-- C8: the completion flag of an `Operation` starts `False`, is set to
`True` exactly when a `finished()` call observes a done status, is never
reset, and `finished()` on an already-complete operation raises `ValueError`
without issuing any status query. -/
theorem operation_complete_spec :
    (∀ (t : String) (i b : Nat), (Operation.init t i b)._complete = false)
    ∧ (∀ (op : Operation) (d : Bool), op._complete = true →
      Operation.finished op d = (Except.error "The operation has completed.", 0))
    ∧ (∀ (op : Operation) (d res : Bool) (op' : Operation),
      (Operation.finished op d).1 = Except.ok (res, op') →
      op._complete = false ∧ res = d ∧ op'._complete = d
      ∧ op'.op_type = op.op_type ∧ op'.op_id = op.op_id
      ∧ op'.begin_ = op.begin_) := by
  refine ⟨fun _ _ _ => rfl, ?_, ?_⟩
  · intro op d h
    simp [Operation.finished, h]
  · intro op d res op' h
    cases hc : op._complete with
    | true => simp [Operation.finished, hc] at h
    | false =>
      cases d with
      | true =>
        simp only [Operation.finished, hc, Bool.false_eq_true, if_false,
          if_true] at h
        cases h
        exact ⟨rfl, rfl, rfl, rfl, rfl, rfl⟩
      | false =>
        simp only [Operation.finished, hc, Bool.false_eq_true, if_false] at h
        cases h
        exact ⟨rfl, rfl, hc, rfl, rfl, rfl⟩

/-- Witness for C8 at concrete inputs: an already-complete operation errors
with no query; a fresh operation observing done flips the flag. -/
theorem operation_complete_spec_witness :
    Operation.finished ⟨"create", 7, 0, true⟩ false =
      (Except.error "The operation has completed.", 0)
    ∧ ((Operation.init "create" 7 0)._complete = false
      ∧ (true : Bool) = true
      ∧ (Operation.mk "create" 7 0 true)._complete = true
      ∧ (Operation.mk "create" 7 0 true).op_type =
          (Operation.init "create" 7 0).op_type
      ∧ (Operation.mk "create" 7 0 true).op_id =
          (Operation.init "create" 7 0).op_id
      ∧ (Operation.mk "create" 7 0 true).begin_ =
          (Operation.init "create" 7 0).begin_) :=
  ⟨operation_complete_spec.2.1 ⟨"create", 7, 0, true⟩ false rfl,
   operation_complete_spec.2.2 (Operation.init "create" 7 0) true true
     (Operation.mk "create" 7 0 true) rfl⟩

/-- Containing a timestamp leaf distributes over list append. -/
theorem hasTimestampFilterList_append (a b : List RowFilter) :
    hasTimestampFilterList (a ++ b) =
      (hasTimestampFilterList a || hasTimestampFilterList b) := by
  induction a with
  | nil => simp [hasTimestampFilterList]
  | cons f fs ih =>
    simp [hasTimestampFilterList, ih, Bool.or_assoc]

/-- With no timestamp supplied, the filter list built by
`_filter_chain_filters` contains a timestamp leaf exactly when the incoming
filters already did: no timestamp-range leaf is emitted. -/
theorem filter_chain_filters_no_timestamp
    (column : Option PyStr) (versions : Option Nat) (filters fs : List RowFilter)
    (h : _filter_chain_filters column versions none filters = Except.ok fs) :
    hasTimestampFilterList fs = hasTimestampFilterList filters := by
  have leaf_block : ∀ (l extra : List RowFilter),
      hasTimestampFilterList extra = false →
      hasTimestampFilterList (l ++ extra) = hasTimestampFilterList l := by
    intro l extra hx
    simp [hasTimestampFilterList_append, hx]
  cases column with
  | none =>
    cases versions with
    | none =>
      simp only [_filter_chain_filters, _convert_to_time_range,
        Pure.pure, Except.pure, Bind.bind, Except.bind] at h
      cases h
      rfl
    | some v =>
      simp only [_filter_chain_filters, _convert_to_time_range,
        Pure.pure, Except.pure, Bind.bind, Except.bind] at h
      cases h
      exact leaf_block _ _
        (by simp [hasTimestampFilterList, RowFilter.hasTimestampFilter])
  | some col =>
    cases hs : pySplit ':' col with
    | nil =>
      simp [_filter_chain_filters, hs, Bind.bind, Except.bind] at h
    | cons a l1 =>
      cases l1 with
      | nil => simp [_filter_chain_filters, hs, Bind.bind, Except.bind] at h
      | cons b l2 =>
        cases l2 with
        | cons c l3 =>
          simp [_filter_chain_filters, hs, Bind.bind, Except.bind] at h
        | nil =>
          cases versions with
          | none =>
            simp only [_filter_chain_filters, hs, _convert_to_time_range,
              Pure.pure, Except.pure, Bind.bind, Except.bind] at h
            cases h
            exact leaf_block _ _
              (by simp [hasTimestampFilterList, RowFilter.hasTimestampFilter])
          | some v =>
            simp only [_filter_chain_filters, hs, _convert_to_time_range,
              Pure.pure, Except.pure, Bind.bind, Except.bind] at h
            cases h
            rw [List.append_assoc]
            exact leaf_block _ _
              (by simp [hasTimestampFilterList, RowFilter.hasTimestampFilter])

/-- With no timestamp supplied, `_filter_chain_helper` emits no
timestamp-range leaf: its output contains one exactly when the incoming
filters already did. -/
theorem filter_chain_helper_no_timestamp
    (column : Option PyStr) (versions : Option Nat)
    (filters : List RowFilter) (f : RowFilter)
    (h : _filter_chain_helper column versions none filters = Except.ok f) :
    f.hasTimestampFilter = hasTimestampFilterList filters := by
  simp only [_filter_chain_helper, Bind.bind, Except.bind] at h
  cases hfs : _filter_chain_filters column versions none filters with
  | error e => simp [hfs] at h
  | ok fs =>
    have hts := filter_chain_filters_no_timestamp column versions filters fs hfs
    rw [hfs] at h
    cases fs with
    | nil => simp at h
    | cons x rest =>
      cases rest with
      | nil =>
        cases h
        simpa [hasTimestampFilterList] using hts
      | cons y rest2 =>
        cases h
        simpa [RowFilter.hasTimestampFilter] using hts

/-- The per-selector column filters contain no timestamp leaf. -/
theorem map_column_pair_filter_no_timestamp :
    ∀ pairs : List (PyStr × Option PyStr),
      hasTimestampFilterList (pairs.map _column_pair_filter) = false := by
  intro pairs
  induction pairs with
  | nil => rfl
  | cons p ps ih =>
    have hp : (_column_pair_filter p).hasTimestampFilter = false := by
      rcases p with ⟨fam, _ | qual⟩ <;>
        simp [_column_pair_filter, RowFilter.hasTimestampFilter,
          hasTimestampFilterList]
    simp [hasTimestampFilterList, hp, ih]

/-- A compiled column-selection predicate contains no timestamp leaf. -/
theorem columns_filter_no_timestamp (cols : List PyStr) (f : RowFilter)
    (h : _columns_filter_helper cols = Except.ok f) :
    f.hasTimestampFilter = false := by
  simp only [_columns_filter_helper, Bind.bind, Except.bind] at h
  cases hpairs : _get_column_pairs cols with
  | error e => simp [hpairs] at h
  | ok pairs =>
    simp only [hpairs] at h
    cases hm : pairs.map _column_pair_filter with
    | nil => simp [hm] at h
    | cons x rest =>
      have hts : hasTimestampFilterList (x :: rest) = false := by
        rw [← hm]; exact map_column_pair_filter_no_timestamp pairs
      cases rest with
      | nil =>
        simp only [hm] at h
        cases h
        simpa [hasTimestampFilterList] using hts
      | cons y rest2 =>
        simp only [hm] at h
        cases h
        simpa [RowFilter.hasTimestampFilter, hm] using hts

/-- A compiled row-key predicate contains no timestamp leaf. -/
theorem row_keys_filter_no_timestamp (row_keys : List PyStr) (f : RowFilter)
    (h : _row_keys_filter_helper row_keys = Except.ok f) :
    f.hasTimestampFilter = false := by
  have hmap : ∀ keys : List PyStr,
      hasTimestampFilterList (keys.map RowFilter.rowKeyRegex) = false := by
    intro keys
    induction keys with
    | nil => rfl
    | cons k ks ih =>
      simp [hasTimestampFilterList, RowFilter.hasTimestampFilter, ih]
  simp only [_row_keys_filter_helper] at h
  cases hm : row_keys.map RowFilter.rowKeyRegex with
  | nil => simp [hm] at h
  | cons x rest =>
    have hts : hasTimestampFilterList (x :: rest) = false := by
      rw [← hm]; exact hmap row_keys
    cases rest with
    | nil =>
      simp only [hm] at h
      cases h
      simpa [hasTimestampFilterList] using hts
    | cons y rest2 =>
      simp only [hm] at h
      cases h
      simpa [RowFilter.hasTimestampFilter, hm] using hts

/-- C5: for every millisecond timestamp `t` the compiled timestamp-range
leaf has exclusive upper bound exactly `t` (the timestamp of `1000 * t`
microseconds, no `+ 1` adjustment — semantics (b)); the same leaf is
produced at every compile call site (`row`, `rows`, `cells`, `scan`); and
when no timestamp is supplied no timestamp-range leaf is emitted by the
compile helpers. -/
theorem timestamp_cutoff_spec :
    (∀ t : Nat, _convert_to_time_range (some t) = some ⟨none, some (1000 * t)⟩)
    ∧ _convert_to_time_range none = none
    ∧ (∀ t : Nat, Table.row_filter none (some t) = Except.ok (RowFilter.chain
      [RowFilter.cellsColumnLimit 1,
       RowFilter.timestampRangeFilter ⟨none, some (1000 * t)⟩]))
    ∧ (∀ (t : Nat) (k : PyStr) (ks : List PyStr) (rk : RowFilter),
      _row_keys_filter_helper (k :: ks) = Except.ok rk →
      Table.rows_plan (k :: ks) none (some t) = Table.RowsAction.readRequest
        (RowFilter.chain [rk, RowFilter.cellsColumnLimit 1,
          RowFilter.timestampRangeFilter ⟨none, some (1000 * t)⟩]))
    ∧ (∀ (t : Nat) (col fam qual : PyStr) (v : Nat),
      pySplit ':' col = [fam, qual] →
      Table.cells_filter col (some v) (some t) = Except.ok
        (RowFilter.chain [RowFilter.familyNameRegex fam,
          RowFilter.columnQualifierRegex qual, RowFilter.cellsColumnLimit v,
          RowFilter.timestampRangeFilter ⟨none, some (1000 * t)⟩]))
    ∧ (∀ (t : Nat) (f : RowFilter),
      Table.scan_filter (some f) none (some t) = Except.ok
        (RowFilter.chain [f, RowFilter.cellsColumnLimit 1,
          RowFilter.timestampRangeFilter ⟨none, some (1000 * t)⟩]))
    ∧ (∀ (column : Option PyStr) (versions : Option Nat)
        (filters : List RowFilter) (f : RowFilter),
      _filter_chain_helper column versions none filters = Except.ok f →
      f.hasTimestampFilter = hasTimestampFilterList filters)
    ∧ (∀ (cols : List PyStr) (f : RowFilter),
      _columns_filter_helper cols = Except.ok f →
      f.hasTimestampFilter = false)
    ∧ (∀ (row_keys : List PyStr) (f : RowFilter),
      _row_keys_filter_helper row_keys = Except.ok f →
      f.hasTimestampFilter = false) := by
  refine ⟨fun t => rfl, rfl, fun t => rfl, ?_, ?_, ?_,
    filter_chain_helper_no_timestamp, columns_filter_no_timestamp,
    row_keys_filter_no_timestamp⟩
  · intro t k ks rk hrk
    simp [Table.rows_plan, _filter_chain_helper, _filter_chain_filters,
      _convert_to_time_range, _microseconds_to_timestamp, hrk,
      Bind.bind, Except.bind, Pure.pure, Except.pure]
  · intro t col fam qual v hsplit
    simp [Table.cells_filter, _filter_chain_helper, _filter_chain_filters,
      _convert_to_time_range, _microseconds_to_timestamp, hsplit,
      Bind.bind, Except.bind, Pure.pure, Except.pure]
  · intro t f
    rfl

/-- Witness for C5 at concrete inputs: the same end bound `5000`
microseconds (timestamp 5 ms, no adjustment) at the rows and cells call
sites, and no timestamp leaf from a version-cap-only compile. -/
theorem timestamp_cutoff_spec_witness :
    Table.rows_plan [['k']] none (some 5) = Table.RowsAction.readRequest
      (RowFilter.chain [RowFilter.rowKeyRegex ['k'],
        RowFilter.cellsColumnLimit 1,
        RowFilter.timestampRangeFilter ⟨none, some 5000⟩])
    ∧ Table.cells_filter ['f', ':', 'c'] (some 2) (some 5) = Except.ok
      (RowFilter.chain [RowFilter.familyNameRegex ['f'],
        RowFilter.columnQualifierRegex ['c'], RowFilter.cellsColumnLimit 2,
        RowFilter.timestampRangeFilter ⟨none, some 5000⟩])
    ∧ (RowFilter.cellsColumnLimit 3).hasTimestampFilter =
      hasTimestampFilterList [] :=
  ⟨timestamp_cutoff_spec.2.2.2.1 5 ['k'] [] (RowFilter.rowKeyRegex ['k']) rfl,
   timestamp_cutoff_spec.2.2.2.2.1 5 ['f', ':', 'c'] ['f'] ['c'] 2 (by decide),
   timestamp_cutoff_spec.2.2.2.2.2.2.1 none (some 3) [] (RowFilter.cellsColumnLimit 3) rfl⟩

end GcloudBigtable
